import Mathlib

/-!
Verification of the reactor/wake subsystem of the folo runtime.

The development shallowly embeds the Rust sources:
* `src/crates/folo/src/rt/waker.rs` — the per-task `WakeSignal` with its
  raw-waker vtable (`waker_clone_waker`, `waker_wake`, `waker_wake_by_ref`,
  `waker_drop_waker`);
* `src/crates/folo/src/io/waker.rs` — the cross-thread `IoWaker` posting a
  sentinel completion record with key `WAKE_UP_COMPLETION_KEY`.

Machine integers (`usize`) are modelled as `Nat` with wrap-around at
`2 ^ 64` (the target is 64-bit Windows); atomics are modelled as plain
fields of a state record since the claims are about the sequential
semantics of the operations.
-/

/-- Modulus of the Rust `usize` type on the 64-bit target. -/
def USIZE_MOD : Nat := 2 ^ 64

/-- Wrapping increment of a 64-bit counter: the value after
`fetch_add(1, ...)` on an `AtomicUsize` holding `c`. -/
def usize_inc (c : Nat) : Nat := (c + 1) % USIZE_MOD

/-- Wrapping decrement of a 64-bit counter: the value after
`fetch_sub(1, ...)` on an `AtomicUsize` holding `c`. For `c < USIZE_MOD`
this is `(c + (USIZE_MOD - 1)) % USIZE_MOD`, i.e. two's-complement wrap. -/
def usize_dec (c : Nat) : Nat := if c = 0 then USIZE_MOD - 1 else c - 1

theorem usize_inc_eq (c : Nat) (h : c + 1 < USIZE_MOD) : usize_inc c = c + 1 :=
  Nat.mod_eq_of_lt h

theorem usize_dec_eq (c : Nat) (h : 1 ≤ c) : usize_dec c = c - 1 := by
  unfold usize_dec
  rw [if_neg (by omega)]

/-- State of `WakeSignal` (src/crates/folo/src/rt/waker.rs).

* `addr` — the stable (pinned) address of the signal itself; the raw-waker
  data pointer handed out by `create_waker` is exactly this address.
* `waker_count` — the `AtomicUsize` counting each waker created (the initial
  cached one and every clone).
* `awakened` — the `AtomicBool` wake flag.
* `cached_waker` — the `UnsafeCell<Option<Waker>>`: `none` before first use,
  `some p` once initialized, where `p` is the data pointer the cached
  `Waker` carries. -/
structure WakeSignal where
  addr : Nat
  waker_count : Nat
  awakened : Bool
  cached_waker : Option Nat
  deriving Repr, DecidableEq

/-- Rust `WakeSignal::new()`: zero waker count, not awakened, no cached waker. -/
def WakeSignal.new (addr : Nat) : WakeSignal :=
  { addr := addr, waker_count := 0, awakened := false, cached_waker := none }

/-- Rust `WakeSignal::consume_awakened`: `self.awakened.swap(false, Acquire)` —
returns the prior flag value and resets the flag. -/
def WakeSignal.consume_awakened (s : WakeSignal) : Bool × WakeSignal :=
  (s.awakened, { s with awakened := false })

/-- Rust `WakeSignal::is_inert`: `self.waker_count.load(Relaxed) <= 1`. -/
def WakeSignal.is_inert (s : WakeSignal) : Bool :=
  s.waker_count ≤ 1

/-- Rust `WakeSignal::create_waker`: `fetch_add(1, Relaxed)` on the count, then
builds a `Waker` from the raw signal pointer. Returns the data pointer of
the new waker together with the updated signal. -/
def WakeSignal.create_waker (s : WakeSignal) : Nat × WakeSignal :=
  (s.addr, { s with waker_count := usize_inc s.waker_count })

/-- Rust `WakeSignal::waker`: if the cached waker is `None`, create it and store
it in the cell; return (a reference to) the cached waker. The returned `Nat`
is the data pointer of the waker handed out. -/
def WakeSignal.waker_ref (s : WakeSignal) : Nat × WakeSignal :=
  match s.cached_waker with
  | some p => (p, s)
  | none =>
      let c := s.create_waker
      (c.1, { c.2 with cached_waker := some c.1 })

/-- Vtable `waker_clone_waker`: `fetch_add(1, Relaxed)` on the count and a
new `RawWaker` with the same data pointer; the flag is untouched. -/
def waker_clone_waker (ptr : Nat) (s : WakeSignal) : Nat × WakeSignal :=
  (ptr, { s with waker_count := usize_inc s.waker_count })

/-- Vtable `waker_wake`: store `true` into `awakened` (Release), then
`fetch_sub(1, Relaxed)` on the count (this consumes the waker). -/
def waker_wake (s : WakeSignal) : WakeSignal :=
  { s with awakened := true, waker_count := usize_dec s.waker_count }

/-- Vtable `waker_wake_by_ref`: store `true` into `awakened` (Release); the
count is untouched. -/
def waker_wake_by_ref (s : WakeSignal) : WakeSignal :=
  { s with awakened := true }

/-- Vtable `waker_drop_waker`: `fetch_sub(1, Relaxed)` on the count; the
flag is untouched. -/
def waker_drop_waker (s : WakeSignal) : WakeSignal :=
  { s with waker_count := usize_dec s.waker_count }

/-- Rust `impl Drop for WakeSignal`: `debug_assert!(self.is_inert())`. The
diagnostic fires exactly when the asserted condition is false. -/
def WakeSignal.drop_diagnostic_fires (s : WakeSignal) : Bool :=
  ! s.is_inert

/-! ## Traces of handle operations

The claims quantify over sequences of operations performed through the
signal and its handles. An event is one call into the signal or its vtable;
a `SigWorld` pairs the signal state with the number of live external
handles (wakers obtained by `clone` and not yet consumed by `wake` or
`drop`), which is the quantity the spec's inertness claims speak about. -/

inductive SigEvent where
  | requestHandle : SigEvent
  | clone : SigEvent
  | wake : SigEvent
  | wakeByRef : SigEvent
  | drop : SigEvent
  deriving Repr, DecidableEq

structure SigWorld where
  sig : WakeSignal
  live : Nat
  deriving Repr, DecidableEq

/-- Effect of one event on the world. `requestHandle` is
`WakeSignal::waker()`; `clone`, `wake`, `wakeByRef`, `drop` are the vtable
functions, invoked on a handle carrying the signal's address. `clone`
creates a live external handle; `wake` and `drop` consume one. -/
def SigWorld.step (w : SigWorld) : SigEvent → SigWorld
  | .requestHandle => { w with sig := (w.sig.waker_ref).2 }
  | .clone => { sig := (waker_clone_waker w.sig.addr w.sig).2, live := w.live + 1 }
  | .wake => { sig := waker_wake w.sig, live := w.live - 1 }
  | .wakeByRef => { w with sig := waker_wake_by_ref w.sig }
  | .drop => { sig := waker_drop_waker w.sig, live := w.live - 1 }

/-- An event is permitted in a world when the caller can actually perform
it: cloning or waking by reference needs some waker to exist (the cached
one or a live clone); `wake` and `drop` consume an owned (cloned) waker,
so one must be live. -/
def SigWorld.allows (w : SigWorld) : SigEvent → Prop
  | .requestHandle => True
  | .clone => w.sig.cached_waker.isSome = true ∨ 1 ≤ w.live
  | .wake => 1 ≤ w.live
  | .wakeByRef => w.sig.cached_waker.isSome = true ∨ 1 ≤ w.live
  | .drop => 1 ≤ w.live

/-- Run a list of events from a world. -/
def SigWorld.run (w : SigWorld) : List SigEvent → SigWorld
  | [] => w
  | e :: es => (w.step e).run es

/-- Every event of the list is permitted in the world it is applied to. -/
def SigWorld.validTrace (w : SigWorld) : List SigEvent → Prop
  | [] => True
  | e :: es => w.allows e ∧ (w.step e).validTrace es

/-- The world of a freshly created signal: `WakeSignal::new()` and no live
external handles. -/
def SigWorld.fresh (addr : Nat) : SigWorld :=
  { sig := WakeSignal.new addr, live := 0 }

/-! ## The counting invariant

For any world reached from a fresh signal by permitted operations, the
waker count equals the number of live external handles plus one for the
cached waker once it exists. -/

def SigWorld.Inv (w : SigWorld) : Prop :=
  w.sig.waker_count = w.live + (if w.sig.cached_waker.isSome then 1 else 0) ∧
  (1 ≤ w.live → w.sig.cached_waker.isSome = true)

theorem SigWorld.inv_step (w : SigWorld) (e : SigEvent) (hInv : w.Inv)
    (hAllow : w.allows e) (hBound : w.live + 2 < USIZE_MOD) :
    (w.step e).Inv ∧ (w.step e).live ≤ w.live + 1 := by
  obtain ⟨hc, hl⟩ := hInv
  cases e
  case requestHandle =>
    cases hcw : w.sig.cached_waker with
    | some p =>
        refine ⟨⟨?_, ?_⟩, ?_⟩ <;>
          simp only [SigWorld.step, WakeSignal.waker_ref, hcw] <;>
          simp_all [hcw]
    | none =>
        have hlive : w.live = 0 := by
          by_contra hne
          have := hl (by omega)
          simp [hcw] at this
        have hcount : w.sig.waker_count = 0 := by
          simpa [hcw, hlive] using hc
        have hinc : usize_inc w.sig.waker_count = 1 := by
          rw [hcount]
          exact usize_inc_eq 0 (by omega)
        refine ⟨⟨?_, ?_⟩, ?_⟩ <;>
          simp only [SigWorld.step, WakeSignal.waker_ref, WakeSignal.create_waker,
            hcw, hinc, hlive, Option.isSome_some, if_true] <;>
          simp
  case clone =>
    have hsome : w.sig.cached_waker.isSome = true := by
      rcases hAllow with h | h
      · exact h
      · exact hl h
    have hcount : w.sig.waker_count = w.live + 1 := by simpa [hsome] using hc
    have hinc : usize_inc w.sig.waker_count = w.live + 1 + 1 := by
      rw [hcount]
      exact usize_inc_eq (w.live + 1) (by omega)
    refine ⟨⟨?_, ?_⟩, ?_⟩ <;>
      simp only [SigWorld.step, waker_clone_waker, hinc, hsome, if_true] <;>
      simp [hsome]
  case wake =>
    have hlive : 1 ≤ w.live := hAllow
    have hsome : w.sig.cached_waker.isSome = true := hl hlive
    have hcount : w.sig.waker_count = w.live + 1 := by simpa [hsome] using hc
    have hdec : usize_dec w.sig.waker_count = w.live := by
      rw [hcount, usize_dec_eq (w.live + 1) (by omega)]
      omega
    refine ⟨⟨?_, ?_⟩, ?_⟩ <;>
      simp only [SigWorld.step, waker_wake, hdec, hsome, if_true]
    · omega
    · intro h
      trivial
    · omega
  case wakeByRef =>
    refine ⟨⟨?_, ?_⟩, ?_⟩ <;>
      simp only [SigWorld.step, waker_wake_by_ref] <;>
      simp_all
  case drop =>
    have hlive : 1 ≤ w.live := hAllow
    have hsome : w.sig.cached_waker.isSome = true := hl hlive
    have hcount : w.sig.waker_count = w.live + 1 := by simpa [hsome] using hc
    have hdec : usize_dec w.sig.waker_count = w.live := by
      rw [hcount, usize_dec_eq (w.live + 1) (by omega)]
      omega
    refine ⟨⟨?_, ?_⟩, ?_⟩ <;>
      simp only [SigWorld.step, waker_drop_waker, hdec, hsome, if_true]
    · omega
    · intro h
      trivial
    · omega

theorem SigWorld.inv_run (w : SigWorld) (es : List SigEvent) (hInv : w.Inv)
    (hValid : w.validTrace es) (hBound : w.live + es.length + 2 < USIZE_MOD) :
    (w.run es).Inv ∧ (w.run es).live ≤ w.live + es.length := by
  induction es generalizing w with
  | nil => exact ⟨hInv, by simp [SigWorld.run]⟩
  | cons e es ih =>
      obtain ⟨hAllow, hValid'⟩ := hValid
      obtain ⟨hInv', hle⟩ := w.inv_step e hInv hAllow (by simp at hBound; omega)
      obtain ⟨hI, hL⟩ := ih (w.step e) hInv' hValid' (by simp at hBound ⊢; omega)
      refine ⟨hI, ?_⟩
      simp only [SigWorld.run, List.length_cons]
      omega

theorem SigWorld.fresh_inv (addr : Nat) : (SigWorld.fresh addr).Inv := by
  constructor <;> simp [SigWorld.fresh, WakeSignal.new]

theorem SigWorld.inert_iff_live_zero (w : SigWorld) (hInv : w.Inv) :
    w.sig.is_inert = true ↔ w.live = 0 := by
  obtain ⟨hc, hl⟩ := hInv
  simp only [WakeSignal.is_inert, decide_eq_true_eq]
  cases hcw : w.sig.cached_waker with
  | some p =>
      simp [hcw] at hc
      omega
  | none =>
      have hlive : w.live = 0 := by
        by_contra hne
        have := hl (by omega)
        simp [hcw] at this
      have hc0 : w.sig.waker_count = 0 := by
        simpa [hcw, hlive] using hc
      simp [hc0, hlive]

/-! ## Preservation of the awakened flag -/

theorem step_keeps_awakened (w : SigWorld) (e : SigEvent)
    (h : w.sig.awakened = true) : (w.step e).sig.awakened = true := by
  cases e
  case requestHandle =>
    cases hcw : w.sig.cached_waker with
    | some p => simpa [SigWorld.step, WakeSignal.waker_ref, hcw] using h
    | none =>
        simpa [SigWorld.step, WakeSignal.waker_ref,
          WakeSignal.create_waker, hcw] using h
  case clone => simpa [SigWorld.step, waker_clone_waker] using h
  case wake => simp [SigWorld.step, waker_wake]
  case wakeByRef => simp [SigWorld.step, waker_wake_by_ref]
  case drop => simpa [SigWorld.step, waker_drop_waker] using h

theorem run_keeps_awakened (w : SigWorld) (es : List SigEvent)
    (h : w.sig.awakened = true) : (w.run es).sig.awakened = true := by
  induction es generalizing w with
  | nil => exact h
  | cons e es ih => exact ih (w.step e) (step_keeps_awakened w e h)

theorem wake_by_ref_iterate_awakened (s : WakeSignal) (n : Nat) (h : 1 ≤ n) :
    (waker_wake_by_ref^[n] s).awakened = true := by
  cases n with
  | zero => omega
  | succ m => rw [Function.iterate_succ_apply']; rfl

/-! ## Claim theorems about the wake signal -/

/-- C10: a freshly constructed `WakeSignal` has waker count zero, is inert,
and `consume_awakened` on it returns `false`. -/
theorem wakeSignal_new_initial_state (addr : Nat) :
    (WakeSignal.new addr).waker_count = 0 ∧
    (WakeSignal.new addr).is_inert = true ∧
    ((WakeSignal.new addr).consume_awakened).1 = false :=
  ⟨rfl, rfl, rfl⟩

/-- C6: dropping a `WakeSignal` fires the `debug_assert` diagnostic exactly
when the signal is not inert; dropping an inert signal fires none. -/
theorem wakeSignal_drop_diagnostic_iff_not_inert (s : WakeSignal) :
    s.drop_diagnostic_fires = true ↔ s.is_inert = false := by
  simp [WakeSignal.drop_diagnostic_fires]

/-- C2: invoking `waker_wake_by_ref` N ≥ 1 times followed by one
`consume_awakened` yields exactly one `true`, and the immediately following
`consume_awakened` returns `false`. -/
theorem wake_by_ref_n_then_consume_once (s : WakeSignal) (n : Nat) (h : 1 ≤ n) :
    ((waker_wake_by_ref^[n] s).consume_awakened).1 = true ∧
    (((waker_wake_by_ref^[n] s).consume_awakened).2.consume_awakened).1 = false :=
  ⟨wake_by_ref_iterate_awakened s n h, rfl⟩

theorem wake_by_ref_n_then_consume_once_witness :
    ((waker_wake_by_ref^[1] (WakeSignal.new 0)).consume_awakened).1 = true ∧
    (((waker_wake_by_ref^[1] (WakeSignal.new 0)).consume_awakened).2.consume_awakened).1
      = false :=
  wake_by_ref_n_then_consume_once (WakeSignal.new 0) 1 (by decide)

/-- C3: a wake is sticky and never lost — after a `wake` or `wake_by_ref`,
any further sequence of handle operations (none of which consumes) leaves
the awakened flag set, and the next `consume_awakened` returns `true`. -/
theorem wake_never_lost (w : SigWorld) (e : SigEvent) (es : List SigEvent)
    (h : e = SigEvent.wake ∨ e = SigEvent.wakeByRef) :
    ((w.step e).run es).sig.awakened = true ∧
    (((w.step e).run es).sig.consume_awakened).1 = true := by
  have hset : (w.step e).sig.awakened = true := by
    rcases h with rfl | rfl
    · rfl
    · rfl
  have hkeep := run_keeps_awakened (w.step e) es hset
  exact ⟨hkeep, hkeep⟩

theorem wake_never_lost_witness :
    (((SigWorld.fresh 0).step SigEvent.wake).run [SigEvent.clone]).sig.awakened = true ∧
    ((((SigWorld.fresh 0).step SigEvent.wake).run [SigEvent.clone]).sig.consume_awakened).1
      = true :=
  wake_never_lost (SigWorld.fresh 0) SigEvent.wake [SigEvent.clone] (Or.inl rfl)

/-- Concrete signal used to witness theorems with hypotheses: one waker
created, not awakened. -/
def sampleSignal : WakeSignal :=
  { addr := 0, waker_count := 1, awakened := false, cached_waker := some 0 }

/-- C7: each vtable handler has exactly its specified effect — clone
increments the count and leaves the flag; wake sets the flag and decrements
the count; wake-by-ref sets the flag and leaves the count; drop decrements
the count and leaves the flag. -/
theorem vtable_handler_effects (s : WakeSignal) (ptr : Nat)
    (h1 : 1 ≤ s.waker_count) (h2 : s.waker_count + 1 < USIZE_MOD) :
    (waker_clone_waker ptr s).2.waker_count = s.waker_count + 1 ∧
    (waker_clone_waker ptr s).2.awakened = s.awakened ∧
    (waker_wake s).awakened = true ∧
    (waker_wake s).waker_count = s.waker_count - 1 ∧
    (waker_wake_by_ref s).awakened = true ∧
    (waker_wake_by_ref s).waker_count = s.waker_count ∧
    (waker_drop_waker s).waker_count = s.waker_count - 1 ∧
    (waker_drop_waker s).awakened = s.awakened := by
  have hinc := usize_inc_eq s.waker_count h2
  have hdec := usize_dec_eq s.waker_count h1
  refine ⟨?_, rfl, rfl, ?_, rfl, rfl, ?_, rfl⟩ <;>
    simp only [waker_clone_waker, waker_wake, waker_drop_waker, hinc, hdec]

theorem vtable_handler_effects_witness :
    (waker_clone_waker 0 sampleSignal).2.waker_count = sampleSignal.waker_count + 1 ∧
    (waker_clone_waker 0 sampleSignal).2.awakened = sampleSignal.awakened ∧
    (waker_wake sampleSignal).awakened = true ∧
    (waker_wake sampleSignal).waker_count = sampleSignal.waker_count - 1 ∧
    (waker_wake_by_ref sampleSignal).awakened = true ∧
    (waker_wake_by_ref sampleSignal).waker_count = sampleSignal.waker_count ∧
    (waker_drop_waker sampleSignal).waker_count = sampleSignal.waker_count - 1 ∧
    (waker_drop_waker sampleSignal).awakened = sampleSignal.awakened :=
  vtable_handler_effects sampleSignal 0 (by decide)
    (by norm_num [sampleSignal, USIZE_MOD])

/-- C8: `waker()` is idempotent — the first call constructs the cached
waker (whose data pointer is the signal's own address) and increments the
count; a repeated call returns the same cached waker and leaves the state
unchanged. -/
theorem waker_request_idempotent (s : WakeSignal) (h : s.cached_waker = none)
    (hb : s.waker_count + 1 < USIZE_MOD) :
    (s.waker_ref).1 = s.addr ∧
    (s.waker_ref).2.cached_waker = some s.addr ∧
    (s.waker_ref).2.waker_count = s.waker_count + 1 ∧
    (s.waker_ref).2.waker_ref = ((s.waker_ref).1, (s.waker_ref).2) := by
  have hinc := usize_inc_eq s.waker_count hb
  refine ⟨?_, ?_, ?_, ?_⟩ <;>
    simp only [WakeSignal.waker_ref, WakeSignal.create_waker, h, hinc]

theorem waker_request_idempotent_witness :
    ((WakeSignal.new 0).waker_ref).1 = (WakeSignal.new 0).addr ∧
    ((WakeSignal.new 0).waker_ref).2.cached_waker = some (WakeSignal.new 0).addr ∧
    ((WakeSignal.new 0).waker_ref).2.waker_count = (WakeSignal.new 0).waker_count + 1 ∧
    ((WakeSignal.new 0).waker_ref).2.waker_ref =
      (((WakeSignal.new 0).waker_ref).1, ((WakeSignal.new 0).waker_ref).2) :=
  waker_request_idempotent (WakeSignal.new 0) rfl
    (by norm_num [WakeSignal.new, USIZE_MOD])

/-- C4: after any permitted sequence of handle-request, clone, wake,
wake-by-ref and drop operations on a fresh signal, `is_inert` returns true
iff the waker count is at most one (the one accounting for the signal's own
cached waker slot), which holds iff no external cloned handle is live — so
no external actor can still invoke wake. -/
theorem inert_iff_count_le_one (addr : Nat) (es : List SigEvent)
    (hValid : (SigWorld.fresh addr).validTrace es)
    (hLen : es.length + 2 < USIZE_MOD) :
    (((SigWorld.fresh addr).run es).sig.is_inert = true ↔
      ((SigWorld.fresh addr).run es).sig.waker_count ≤ 1) ∧
    (((SigWorld.fresh addr).run es).sig.is_inert = true ↔
      ((SigWorld.fresh addr).run es).live = 0) := by
  have hInv := (SigWorld.inv_run (SigWorld.fresh addr) es (SigWorld.fresh_inv addr)
    hValid (by simpa [SigWorld.fresh] using hLen)).1
  constructor
  · simp [WakeSignal.is_inert]
  · exact SigWorld.inert_iff_live_zero _ hInv

theorem inert_iff_count_le_one_witness :
    (((SigWorld.fresh 0).run
        [SigEvent.requestHandle, SigEvent.clone, SigEvent.wake]).sig.is_inert = true ↔
      ((SigWorld.fresh 0).run
        [SigEvent.requestHandle, SigEvent.clone, SigEvent.wake]).sig.waker_count ≤ 1) ∧
    (((SigWorld.fresh 0).run
        [SigEvent.requestHandle, SigEvent.clone, SigEvent.wake]).sig.is_inert = true ↔
      ((SigWorld.fresh 0).run
        [SigEvent.requestHandle, SigEvent.clone, SigEvent.wake]).live = 0) :=
  inert_iff_count_le_one 0 [SigEvent.requestHandle, SigEvent.clone, SigEvent.wake]
    ⟨trivial, Or.inl rfl, Nat.le.refl, trivial⟩ (by norm_num [USIZE_MOD])

/-- C5: for any permitted sequence of handle-request, clone and drop
operations on a fresh signal, `is_inert` is true iff the number of live
(not yet dropped) cloned handles is zero. -/
theorem inert_iff_no_live_handles (addr : Nat) (es : List SigEvent)
    (hOps : ∀ e ∈ es,
      e = SigEvent.requestHandle ∨ e = SigEvent.clone ∨ e = SigEvent.drop)
    (hValid : (SigWorld.fresh addr).validTrace es)
    (hLen : es.length + 2 < USIZE_MOD) :
    ((SigWorld.fresh addr).run es).sig.is_inert = true ↔
      ((SigWorld.fresh addr).run es).live = 0 := by
  have hInv := (SigWorld.inv_run (SigWorld.fresh addr) es (SigWorld.fresh_inv addr)
    hValid (by simpa [SigWorld.fresh] using hLen)).1
  exact SigWorld.inert_iff_live_zero _ hInv

theorem inert_iff_no_live_handles_witness :
    ((SigWorld.fresh 0).run
        [SigEvent.requestHandle, SigEvent.clone, SigEvent.drop]).sig.is_inert = true ↔
      ((SigWorld.fresh 0).run
        [SigEvent.requestHandle, SigEvent.clone, SigEvent.drop]).live = 0 :=
  inert_iff_no_live_handles 0 [SigEvent.requestHandle, SigEvent.clone, SigEvent.drop]
    (by decide) ⟨trivial, Or.inl rfl, Nat.le.refl, trivial⟩ (by norm_num [USIZE_MOD])

/-! ## The cross-thread I/O waker (src/crates/folo/src/io/waker.rs) -/

/-- The reserved completion key for wake-up sentinel records
(src/crates/folo/src/io/waker.rs). -/
def WAKE_UP_COMPLETION_KEY : Nat := 0x23546789897

/-- A completion record as posted to an I/O completion port: byte count,
completion key, and the OVERLAPPED pointer (`none` models null). -/
structure CompletionRecord where
  bytes_transferred : Nat
  completion_key : Nat
  overlapped : Option Nat
  deriving Repr, DecidableEq

/-- An I/O completion port: the queue of pending completion records. -/
structure IoCompletionPort where
  queue : List CompletionRecord
  deriving Repr, DecidableEq

/-- OS call `PostQueuedCompletionStatus`: when the OS call succeeds (`postOk`),
appends one completion record to the port's queue; when it fails, the queue
is unchanged. The call's result is ignored by `IoWaker::wake`. -/
def postQueuedCompletionStatus (port : IoCompletionPort) (bytes key : Nat)
    (ov : Option Nat) (postOk : Bool) : IoCompletionPort :=
  if postOk then
    { queue := port.queue ++
        [{ bytes_transferred := bytes, completion_key := key, overlapped := ov }] }
  else
    port

/-- Rust `IoWaker::wake`: upgrade the weak reference to the completion port
(`port?` is the upgrade result — `none` when the owning worker has shut
down and the port is gone); if gone, return immediately; otherwise post a
sentinel record with zero bytes, `WAKE_UP_COMPLETION_KEY` and a null
OVERLAPPED pointer, ignoring whether the post succeeded (`postOk`). The
function is total and returns only the new port state: no error escapes. -/
def IoWaker.wake (port? : Option IoCompletionPort) (postOk : Bool) :
    Option IoCompletionPort :=
  match port? with
  | none => none
  | some port =>
      some (postQueuedCompletionStatus port 0 WAKE_UP_COMPLETION_KEY none postOk)

/-- C9: `IoWaker::wake` is best-effort and non-blocking — with the port gone
it does nothing (and reports no error, being total); with the port alive and
the post succeeding it appends exactly one sentinel record carrying
`WAKE_UP_COMPLETION_KEY`, zero bytes and a null OVERLAPPED pointer; a failed
post is ignored and leaves the port unchanged. -/
theorem ioWaker_wake_best_effort (p : IoCompletionPort) (b : Bool) :
    IoWaker.wake none b = none ∧
    IoWaker.wake (some p) true =
      some { queue := p.queue ++
        [{ bytes_transferred := 0, completion_key := WAKE_UP_COMPLETION_KEY,
           overlapped := none }] } ∧
    IoWaker.wake (some p) false = some p :=
  ⟨rfl, rfl, rfl⟩

/-! ## The I/O Operation lifecycle

Modelled from the spec: the I/O Operation lifecycle of spec section 4.4
("submit", abandonment of the awaiting task, reclamation on completion).
The implementing module (src/crates/folo/src/io/operation.rs, declared in
src/crates/folo/src/io.rs) is not among the provided sources, so the state
machine below follows the spec's words: an in-flight Operation owns a
pinned buffer; dropping the awaiting task abandons the Operation without
touching its memory; the Operation is reclaimed (buffer released) exactly
once, when the completion record for it is observed and consumed by the
drain loop. -/

inductive OpPhase where
  | inFlight : OpPhase
  | abandoned : OpPhase
  | reclaimed : OpPhase
  deriving Repr, DecidableEq

/-- Modelled from the spec: one outstanding I/O Operation — its phase,
whether its pinned buffer is still intact and validly addressable, and how
many times it has been reclaimed. -/
structure Operation where
  phase : OpPhase
  buffer_valid : Bool
  reclaim_count : Nat
  deriving Repr, DecidableEq

inductive OpEvent where
  | abandonTask : OpEvent
  | consumeCompletion : OpEvent
  deriving Repr, DecidableEq

/-- Modelled from the spec: a freshly submitted Operation — in flight,
buffer pinned and valid, never reclaimed. -/
def Operation.fresh : Operation :=
  { phase := OpPhase.inFlight, buffer_valid := true, reclaim_count := 0 }

/-- Modelled from the spec: dropping the awaiting task only detaches the
task's interest (the Operation becomes abandoned, memory untouched);
consuming the completion record in the drain loop reclaims the Operation —
the buffer is released and the reclaim count incremented. -/
def Operation.step (op : Operation) : OpEvent → Operation
  | OpEvent.abandonTask => { op with phase := OpPhase.abandoned }
  | OpEvent.consumeCompletion =>
      { phase := OpPhase.reclaimed, buffer_valid := false,
        reclaim_count := op.reclaim_count + 1 }

/-- Modelled from the spec: a task can only be abandoned while the
Operation is in flight, and the OS delivers (and the drain loop consumes)
exactly one completion record, which cannot happen after reclamation. -/
def Operation.allows (op : Operation) : OpEvent → Prop
  | OpEvent.abandonTask => op.phase = OpPhase.inFlight
  | OpEvent.consumeCompletion =>
      op.phase = OpPhase.inFlight ∨ op.phase = OpPhase.abandoned

def Operation.run (op : Operation) : List OpEvent → Operation
  | [] => op
  | e :: es => (op.step e).run es

def Operation.validTrace (op : Operation) : List OpEvent → Prop
  | [] => True
  | e :: es => op.allows e ∧ (op.step e).validTrace es

theorem Operation.run_append (op : Operation) (l1 l2 : List OpEvent) :
    op.run (l1 ++ l2) = (op.run l1).run l2 := by
  induction l1 generalizing op with
  | nil => rfl
  | cons e es ih => exact ih (op.step e)

/-- Any state reached without consuming a completion still has the buffer
valid and was never reclaimed. -/
theorem Operation.no_consume_keeps_buffer (op : Operation) (es : List OpEvent)
    (hb : op.buffer_valid = true) (hr : op.reclaim_count = 0)
    (hnc : OpEvent.consumeCompletion ∉ es) :
    (op.run es).buffer_valid = true ∧ (op.run es).reclaim_count = 0 := by
  induction es generalizing op with
  | nil => exact ⟨hb, hr⟩
  | cons e es ih =>
      have he : e = OpEvent.abandonTask := by
        cases e
        · rfl
        · simp at hnc
      subst he
      simp only [List.mem_cons, not_or] at hnc
      exact ih { op with phase := OpPhase.abandoned } hb hr hnc.2

/-- C1: for an Operation whose awaiting task is dropped before the OS
completion arrives, the pinned buffer remains intact and validly
addressable at every point up to consumption of the completion record, and
once the drain loop consumes that record the Operation is reclaimed exactly
once — no further consumption is permitted. -/
theorem operation_abandonment_safety (mid : List OpEvent)
    (hmid : OpEvent.consumeCompletion ∉ mid)
    (hv : Operation.validTrace Operation.fresh
      ((OpEvent.abandonTask :: mid) ++ [OpEvent.consumeCompletion])) :
    (Operation.run Operation.fresh (OpEvent.abandonTask :: mid)).buffer_valid = true ∧
    (Operation.run Operation.fresh (OpEvent.abandonTask :: mid)).reclaim_count = 0 ∧
    (Operation.run Operation.fresh
      ((OpEvent.abandonTask :: mid) ++ [OpEvent.consumeCompletion])).reclaim_count = 1 ∧
    ¬ (Operation.run Operation.fresh
      ((OpEvent.abandonTask :: mid) ++ [OpEvent.consumeCompletion])).allows
        OpEvent.consumeCompletion := by
  have hmain := Operation.no_consume_keeps_buffer Operation.fresh
    (OpEvent.abandonTask :: mid) rfl rfl (by simp [hmid])
  have happ := Operation.run_append Operation.fresh
    (OpEvent.abandonTask :: mid) [OpEvent.consumeCompletion]
  refine ⟨hmain.1, hmain.2, ?_, ?_⟩
  · rw [happ]
    show ((Operation.run Operation.fresh
      (OpEvent.abandonTask :: mid)).step OpEvent.consumeCompletion).reclaim_count = 1
    simp only [Operation.step, hmain.2]
  · rw [happ]
    show ¬ ((Operation.run Operation.fresh
      (OpEvent.abandonTask :: mid)).step OpEvent.consumeCompletion).allows
        OpEvent.consumeCompletion
    simp [Operation.step, Operation.allows]

theorem operation_abandonment_safety_witness :
    (Operation.run Operation.fresh [OpEvent.abandonTask]).buffer_valid = true ∧
    (Operation.run Operation.fresh [OpEvent.abandonTask]).reclaim_count = 0 ∧
    (Operation.run Operation.fresh
      ([OpEvent.abandonTask] ++ [OpEvent.consumeCompletion])).reclaim_count = 1 ∧
    ¬ (Operation.run Operation.fresh
      ([OpEvent.abandonTask] ++ [OpEvent.consumeCompletion])).allows
        OpEvent.consumeCompletion :=
  operation_abandonment_safety [] (by simp) ⟨rfl, Or.inr rfl, trivial⟩
